import Mathlib

/-!
Shallow embedding of the `step-machine` crate.

The embedding follows `src/lib.rs` and `src/json_store.rs`:

* `BoxedError` models `Box<dyn error::Error>` as a top-level message together
  with the messages of its chain of `source()` causes, in order.
* `error_chain` is the helper `error_chain` of `lib.rs` (accumulation loop
  `error_chain_go` mirrors its `while let` loop).
* `State` is the checkpoint struct `State { step, error }` of `lib.rs`.
* External, dynamically-dispatched behaviour (serde serialization of
  `Box<dyn Step>`, the `Step::run` transition, the store's `save`/`clean`
  over a durable medium `σ`, the `Debug` rendering) is collected in an
  environment `Env`.  The transition is indexed by the loop-iteration number
  so that nondeterministic steps (a coin toss) are representable.
* `runLoop`/`Engine.run` embed `Engine::run`, threading the durable medium
  and additionally recording the trace of externally observable events
  (transition invocations, `Store::save` calls, `Store::clean` calls).
  Recursion is fuel-indexed because the Rust loop need not terminate.
* `JsonStore.load`/`JsonStore.save`/`JsonStore.clean` embed the default
  file-backed store over a one-file filesystem `FS`; encoding and decoding of
  checkpoints are oracles, exactly like serialization in `Env`.
-/

namespace StepMachine

/-- Model of Rust `Box<dyn error::Error>`: the top-level message (`to_string`)
plus the messages of its chain of `source()` causes, in order. -/
structure BoxedError where
  msg : String
  causes : List String
deriving DecidableEq

/-- The `while let Some(cause) = current` loop of `error_chain` in `lib.rs`:
append `"\n\t{cause}"` for each cause of the chain. -/
def error_chain_go : String → List String → String
  | acc, [] => acc
  | acc, c :: rest => error_chain_go (acc ++ "\n\t" ++ c) rest

/-- Rust `error_chain` (`lib.rs`): the top-level message, then, when there is
at least one cause, the header `"\nCaused by:"` followed by each cause on a
tab-indented line. -/
def error_chain (e : BoxedError) : String :=
  let s := e.msg
  let s := if e.causes.isEmpty then s else s ++ "\nCaused by:"
  error_chain_go s e.causes

/-- Rust `State` (`lib.rs`): the checkpoint, pairing the current step with an
optional pending error message. -/
structure State (Step : Type) where
  step : Step
  error : Option String
deriving DecidableEq

/-- Rust `State::new`. -/
def State.new {Step : Type} (step : Step) (error : Option String) : State Step :=
  ⟨step, error⟩

/-- Rust `Error` of `lib.rs` (`IO`/`Serde`/`Store`/`Step`); `serde_json` and
io errors are modelled by their messages. -/
inductive Error (StoreE : Type) where
  | ioError (msg : String)
  | Serde (msg : String)
  | Store (e : StoreE)
  | Step (msg : String)
deriving DecidableEq

/-- Externally observable events of a run: a transition invocation
(`Step::run` on the given step value), a `Store::save` of the given
checkpoint, a `Store::clean`. -/
inductive Event (Step : Type) where
  | invoke (s : Step)
  | save (st : State Step)
  | clean
deriving DecidableEq

/-- The ambient capabilities `Engine::run` dispatches into: serde
serialization/deserialization of a boxed step, the transition (indexed by the
loop iteration to allow nondeterministic steps), the store's `save` and
`clean` acting on a durable medium `σ`, and the `Debug` rendering of a step. -/
structure Env (Step σ StoreE : Type) where
  ser : Step → Except String String
  deser : String → Except String Step
  next : Nat → Step → Except BoxedError (Option Step)
  save : σ → State Step → Except StoreE σ
  clean : σ → Except StoreE σ
  dbg : Step → String

variable {Step σ StoreE : Type}

/-- The `loop` of `Engine::run` (`lib.rs`), fuel-indexed; `i` is the current
iteration number.  Returns `none` when the fuel runs out, otherwise the
result of `run()`, the final in-memory checkpoint, the final durable medium,
and the trace of events the loop produced.  Each iteration serializes a
snapshot of the current step, invokes the transition and then either persists
the successor, cleans the store on `None`, or rolls the step back from the
snapshot, records the error and persists. -/
def runLoop (env : Env Step σ StoreE) :
    Nat → Nat → State Step → σ →
    Option (Except (Error StoreE) Unit × State Step × σ × List (Event Step))
  | 0, _, _, _ => none
  | fuel + 1, i, st, s =>
    match env.ser st.step with
    | .error e => some (.error (.Serde e), st, s, [])
    | .ok step_backup =>
      match env.next i st.step with
      | .ok (some stp) =>
        let st1 : State Step := { st with step := stp }
        match env.save s st1 with
        | .error e => some (.error (.Store e), st1, s, [.invoke st.step, .save st1])
        | .ok s1 =>
          match runLoop env fuel (i + 1) st1 s1 with
          | none => none
          | some (res, st2, s2, tr) =>
              some (res, st2, s2, .invoke st.step :: .save st1 :: tr)
      | .ok none =>
        match env.clean s with
        | .error e => some (.error (.Store e), st, s, [.invoke st.step, .clean])
        | .ok s1 => some (.ok (), st, s1, [.invoke st.step, .clean])
      | .error e =>
        match env.deser step_backup with
        | .error e2 => some (.error (.Serde e2), st, s, [.invoke st.step])
        | .ok restored =>
          let err_str := error_chain e
          let st1 : State Step := { step := restored, error := some err_str }
          match env.save s st1 with
          | .error se => some (.error (.Store se), st1, s, [.invoke st.step, .save st1])
          | .ok s1 => some (.error (.Step err_str), st1, s1, [.invoke st.step, .save st1])

/-- Rust `Engine::run`: the guard on a pending error, then the loop. -/
def Engine.run (env : Env Step σ StoreE) (fuel : Nat) (st : State Step) (s : σ) :
    Option (Except (Error StoreE) Unit × State Step × σ × List (Event Step)) :=
  match st.error with
  | some e =>
      some (.error (.Step ("Previous run resulted in an error: " ++ e ++
        " on step: " ++ env.dbg st.step)), st, s, [])
  | none => runLoop env fuel 0 st s

/-- Rust `Engine::restore`, as a function of the result of `Store::load` and
the in-memory checkpoint. -/
def Engine.restore (loadRes : Except StoreE (Option (State Step))) (st : State Step) :
    Except (Error StoreE) (State Step) :=
  match loadRes with
  | .error e => .error (.Store e)
  | .ok (some st2) => .ok st2
  | .ok none => .ok st

/-- Rust `Engine::drop_error`: clear the pending error, then persist; returns
the result together with the trace of store events. -/
def Engine.drop_error (env : Env Step σ StoreE) (st : State Step) (s : σ) :
    Except (Error StoreE) (State Step × σ) × List (Event Step) :=
  let st1 : State Step := { st with error := none }
  match env.save s st1 with
  | .error e => (.error (.Store e), [.save st1])
  | .ok s1 => (.ok (st1, s1), [.save st1])

/-- Rust `Engine::new`: the initial in-memory checkpoint, with no error and
no I/O performed. -/
def Engine.new (first_step : Step) : State Step :=
  State.new first_step none

/-- Number of `Store::clean` calls recorded in a trace. -/
def cleanCount : List (Event Step) → Nat
  | [] => 0
  | Event.invoke _ :: rest => cleanCount rest
  | Event.save _ :: rest => cleanCount rest
  | Event.clean :: rest => cleanCount rest + 1

/-- Number of `Store::save` calls recorded in a trace. -/
def saveCount : List (Event Step) → Nat
  | [] => 0
  | Event.invoke _ :: rest => saveCount rest
  | Event.save _ :: rest => saveCount rest + 1
  | Event.clean :: rest => saveCount rest

/-- A trace in which every transition invocation is immediately followed by
exactly one `Store::save` (non-terminal iteration) or by one `Store::clean`
that ends the trace (terminal iteration), with no other store events. -/
def pairedTrace : List (Event Step) → Bool
  | [] => true
  | Event.invoke _ :: Event.save _ :: rest => pairedTrace rest
  | Event.invoke _ :: Event.clean :: rest => rest.isEmpty
  | _ => false

/-- Per-cause rendering of a causal chain: each cause on its own
tab-indented line, in order. -/
def joinCauses : List String → String
  | [] => ""
  | c :: rest => "\n\t" ++ c ++ joinCauses rest

/-- Io error kinds the store code distinguishes (`e.kind() == NotFound`
versus anything else). -/
inductive IoErr where
  | notFound
  | other (msg : String)
deriving DecidableEq

/-- Filesystem as the store sees it: the content, if any, of the file at the
store's configured path. -/
structure FS where
  file : Option String
deriving DecidableEq

/-- `fs::read_to_string` at the store's path. -/
def readToString (fs : FS) : Except IoErr String :=
  match fs.file with
  | some content => .ok content
  | none => .error .notFound

/-- `fs::write` at the store's path. -/
def writeFile (_fs : FS) (content : String) : Except IoErr FS :=
  .ok ⟨some content⟩

/-- `fs::remove_file` at the store's path: fails with `NotFound` when the
file is absent. -/
def removeFile (fs : FS) : Except IoErr FS :=
  match fs.file with
  | some _ => .ok ⟨none⟩
  | none => .error .notFound

namespace JsonStore

/-- Rust `json_store::Error`. -/
inductive Error where
  | ReadFile (e : IoErr) (path : String)
  | WriteFile (e : IoErr) (path : String)
  | RemoveFile (e : IoErr) (path : String)
  | Decode (e : String) (json : String)
  | Encode (e : String) (debugged : String)
deriving DecidableEq

/-- Rust `JsonStore::load`: read the file (absent file means no record),
then decode the checkpoint; `dec` is the serde decoding oracle. -/
def load {Step : Type} (dec : String → Except String (State Step)) (path : String)
    (fs : FS) : Except Error (Option (State Step)) :=
  match readToString fs with
  | .ok json =>
    match dec json with
    | .ok st => .ok (some st)
    | .error e => .error (.Decode e json)
  | .error e =>
    if e = IoErr.notFound then .ok none else .error (.ReadFile e path)

/-- Rust `JsonStore::save`: encode the checkpoint (`enc` is the serde
encoding oracle, `dbgSt` the `Debug` rendering used in the `Encode` error),
then write the file. -/
def save {Step : Type} (enc : State Step → Except String String)
    (dbgSt : State Step → String) (path : String) (fs : FS) (st : State Step) :
    Except Error FS :=
  match enc st with
  | .error e => .error (.Encode e (dbgSt st))
  | .ok json =>
    match writeFile fs json with
    | .ok fs1 => .ok fs1
    | .error e => .error (.WriteFile e path)

/-- Rust `JsonStore::clean`: remove the file, wrapping any failure in
`RemoveFile`. -/
def clean (path : String) (fs : FS) : Except Error FS :=
  match removeFile fs with
  | .ok fs1 => .ok fs1
  | .error e => .error (.RemoveFile e path)

end JsonStore

/-- The engine environment obtained by plugging the `JsonStore`
implementation into the store port. -/
def jsonEnv {Step : Type} (ser : Step → Except String String)
    (deser : String → Except String Step)
    (next : Nat → Step → Except BoxedError (Option Step)) (dbg : Step → String)
    (enc : State Step → Except String String) (dbgSt : State Step → String)
    (path : String) : Env Step FS JsonStore.Error where
  ser := ser
  deser := deser
  next := next
  save := fun fs st => JsonStore.save enc dbgSt path fs st
  clean := fun fs => JsonStore.clean path fs
  dbg := dbg

/-- A concrete environment over unit steps and a `Nat` save-counter medium:
serialization always succeeds and round-trips, the transition is the
parameter. -/
def unitEnv (next : Nat → Unit → Except BoxedError (Option Unit)) :
    Env Unit Nat String where
  ser := fun _ => Except.ok "snapshot"
  deser := fun _ => Except.ok ()
  next := next
  save := fun n _ => Except.ok (n + 1)
  clean := fun n => Except.ok n
  dbg := fun _ => "Unit"

/-- Like `unitEnv`, but deserializing the snapshot always fails. -/
def deserFailEnv (next : Nat → Unit → Except BoxedError (Option Unit)) :
    Env Unit Nat String where
  ser := fun _ => Except.ok "snapshot"
  deser := fun _ => Except.error "bad json"
  next := next
  save := fun n _ => Except.ok (n + 1)
  clean := fun n => Except.ok n
  dbg := fun _ => "Unit"

/-- A concrete `JsonStore`-backed environment over unit steps whose first
transition immediately reports the terminal condition. -/
def terminalJsonEnv : Env Unit FS JsonStore.Error :=
  jsonEnv (fun _ => Except.ok "snapshot") (fun _ => Except.ok ())
    (fun _ _ => Except.ok none) (fun _ => "Unit") (fun _ => Except.ok "record")
    (fun _ => "State") "prog.json"

section Lemmas

variable {Step σ StoreE : Type}

/-- The accumulation loop of `error_chain` appends the tab-indented causes. -/
theorem error_chain_go_eq (l : List String) :
    ∀ acc, error_chain_go acc l = acc ++ joinCauses l := by
  induction l with
  | nil => intro acc; simp [error_chain_go, joinCauses]
  | cons c rest ih =>
    intro acc
    rw [error_chain_go, joinCauses, ih]
    simp [String.append_assoc]

/-- Closed form of `error_chain`: the top-level message, then, when there is
at least one cause, one `"Caused by:"` header followed by each cause on its
own tab-indented line, in order. -/
theorem error_chain_closed (e : BoxedError) :
    error_chain e =
      e.msg ++ (if e.causes = [] then "" else "\nCaused by:" ++ joinCauses e.causes) := by
  rw [error_chain]
  rcases e with ⟨m, causes⟩
  rcases causes with _ | ⟨c, rest⟩
  · simp [error_chain_go]
  · simp only [List.isEmpty_cons]
    rw [error_chain_go_eq]
    simp [String.append_assoc]

/-- Clean calls in a concatenated trace. -/
theorem cleanCount_append (a b : List (Event Step)) :
    cleanCount (a ++ b) = cleanCount a + cleanCount b := by
  induction a with
  | nil => simp [cleanCount]
  | cons x rest ih =>
    cases x
    · simp [cleanCount, ih]
    · simp [cleanCount, ih]
    · simp [cleanCount, ih]
      omega

/-- Characterization of a successful `runLoop`: success arises only from a
transition returning `None` followed by a successful `Store::clean`; the
trace ends with that terminal invocation and its single clean, and carries no
earlier clean. -/
theorem runLoop_ok (env : Env Step σ StoreE) :
    ∀ fuel i st s st' s' tr,
      runLoop env fuel i st s = some (Except.ok (), st', s', tr) →
      ∃ k stp smid tr0, env.next k stp = Except.ok none ∧ env.clean smid = Except.ok s' ∧
        tr = tr0 ++ [Event.invoke stp, Event.clean] ∧ cleanCount tr0 = 0 := by
  intro fuel
  induction fuel with
  | zero =>
    intro i st s st' s' tr h
    simp [runLoop] at h
  | succ fuel ih =>
    intro i st s st' s' tr h
    simp only [runLoop] at h
    rcases hser : env.ser st.step with e | backup
    · simp [hser] at h
    simp only [hser] at h
    rcases hnext : env.next i st.step with e | stpOpt
    · simp only [hnext] at h
      rcases hdeser : env.deser backup with e2 | restored
      · simp [hdeser] at h
      simp only [hdeser] at h
      rcases hsave : env.save s ⟨restored, some (error_chain e)⟩ with se | s1
      · simp [hsave] at h
      · simp [hsave] at h
    simp only [hnext] at h
    rcases stpOpt with _ | stp
    · rcases hclean : env.clean s with ce | s1
      · simp [hclean] at h
      simp only [hclean] at h
      simp only [Option.some.injEq, Prod.mk.injEq] at h
      obtain ⟨-, h1, h2, h3⟩ := h
      subst h1; subst h2
      exact ⟨i, st.step, s, [], hnext, hclean, h3.symm, rfl⟩
    · rcases hsave : env.save s ⟨stp, st.error⟩ with se | s1
      · simp [hsave] at h
      simp only [hsave] at h
      rcases hrec : runLoop env fuel (i + 1) ⟨stp, st.error⟩ s1 with _ | ⟨res, st2, s2, tr2⟩
      · simp [hrec] at h
      simp only [hrec, Option.some.injEq, Prod.mk.injEq] at h
      obtain ⟨h0, h1, h2, h3⟩ := h
      subst h1; subst h2
      rw [h0] at hrec
      obtain ⟨k, stp1, smid, tr0, hk, hc, htr, hcc⟩ := ih _ _ _ _ _ _ hrec
      refine ⟨k, stp1, smid, Event.invoke st.step :: Event.save ⟨stp, st.error⟩ :: tr0, hk, hc, ?_, ?_⟩
      · rw [← h3, htr]; simp
      · simp [cleanCount, hcc]

/-- Characterization of a `runLoop` that ends in a step failure: it arises
only from a failing transition whose pre-call snapshot deserialized back
successfully; the final checkpoint holds the restored step and the formatted
error chain, a successful `Store::save` of exactly that checkpoint is the
last event of the trace, and the reported message is the formatted chain. -/
theorem runLoop_stepErr (env : Env Step σ StoreE) :
    ∀ fuel i st s msg st' s' tr,
      runLoop env fuel i st s = some (Except.error (Error.Step msg), st', s', tr) →
      ∃ k stp e backup restored smid tr0,
        env.ser stp = Except.ok backup ∧ env.next k stp = Except.error e ∧
        env.deser backup = Except.ok restored ∧
        st' = ⟨restored, some (error_chain e)⟩ ∧ msg = error_chain e ∧
        env.save smid st' = Except.ok s' ∧
        tr = tr0 ++ [Event.invoke stp, Event.save st'] := by
  intro fuel
  induction fuel with
  | zero =>
    intro i st s msg st' s' tr h
    simp [runLoop] at h
  | succ fuel ih =>
    intro i st s msg st' s' tr h
    simp only [runLoop] at h
    rcases hser : env.ser st.step with e | backup
    · simp [hser] at h
    simp only [hser] at h
    rcases hnext : env.next i st.step with e | stpOpt
    · simp only [hnext] at h
      rcases hdeser : env.deser backup with e2 | restored
      · simp [hdeser] at h
      simp only [hdeser] at h
      rcases hsave : env.save s ⟨restored, some (error_chain e)⟩ with se | s1
      · simp [hsave] at h
      simp only [hsave, Option.some.injEq, Prod.mk.injEq] at h
      obtain ⟨h0, h1, h2, h3⟩ := h
      subst h1; subst h2
      simp only [Except.error.injEq, Error.Step.injEq] at h0
      exact ⟨i, st.step, e, backup, restored, s, [], hser, hnext, hdeser, rfl, h0.symm,
        hsave, h3.symm⟩
    simp only [hnext] at h
    rcases stpOpt with _ | stp
    · rcases hclean : env.clean s with ce | s1
      · simp [hclean] at h
      · simp [hclean] at h
    · rcases hsave : env.save s ⟨stp, st.error⟩ with se | s1
      · simp [hsave] at h
      simp only [hsave] at h
      rcases hrec : runLoop env fuel (i + 1) ⟨stp, st.error⟩ s1 with _ | ⟨res, st2, s2, tr2⟩
      · simp [hrec] at h
      simp only [hrec, Option.some.injEq, Prod.mk.injEq] at h
      obtain ⟨h0, h1, h2, h3⟩ := h
      subst h1; subst h2
      rw [h0] at hrec
      obtain ⟨k, stp1, e1, backup1, restored1, smid, tr0, ha, hb, hc, hd, he, hf, htr⟩ :=
        ih _ _ _ _ _ _ _ hrec
      refine ⟨k, stp1, e1, backup1, restored1, smid,
        Event.invoke st.step :: Event.save ⟨stp, st.error⟩ :: tr0,
        ha, hb, hc, hd, he, hf, ?_⟩
      rw [← h3, htr]
      simp

/-- Every completed `runLoop` whose snapshots deserialize (the round-trip
requirement the engine places on step serialization) produces a paired
trace: one `Store::save` right after each non-terminal invocation, one
trailing `Store::clean` right after a terminal invocation, nothing else. -/
theorem runLoop_paired (env : Env Step σ StoreE)
    (hrt : ∀ a j, env.ser a = Except.ok j → (env.deser j).isOk = true) :
    ∀ fuel i st s res st' s' tr,
      runLoop env fuel i st s = some (res, st', s', tr) →
      pairedTrace tr = true := by
  intro fuel
  induction fuel with
  | zero =>
    intro i st s res st' s' tr h
    simp [runLoop] at h
  | succ fuel ih =>
    intro i st s res st' s' tr h
    simp only [runLoop] at h
    rcases hser : env.ser st.step with e | backup
    · simp only [hser, Option.some.injEq, Prod.mk.injEq] at h
      obtain ⟨-, -, -, h3⟩ := h
      rw [← h3]
      simp [pairedTrace]
    simp only [hser] at h
    rcases hnext : env.next i st.step with e | stpOpt
    · simp only [hnext] at h
      rcases hdeser : env.deser backup with e2 | restored
      · have := hrt st.step backup hser
        rw [hdeser] at this
        simp [Except.isOk, Except.toBool] at this
      simp only [hdeser] at h
      rcases hsave : env.save s ⟨restored, some (error_chain e)⟩ with se | s1
      · simp only [hsave, Option.some.injEq, Prod.mk.injEq] at h
        obtain ⟨-, -, -, h3⟩ := h
        rw [← h3]
        simp [pairedTrace]
      · simp only [hsave, Option.some.injEq, Prod.mk.injEq] at h
        obtain ⟨-, -, -, h3⟩ := h
        rw [← h3]
        simp [pairedTrace]
    simp only [hnext] at h
    rcases stpOpt with _ | stp
    · rcases hclean : env.clean s with ce | s1
      · simp only [hclean, Option.some.injEq, Prod.mk.injEq] at h
        obtain ⟨-, -, -, h3⟩ := h
        rw [← h3]
        simp [pairedTrace]
      · simp only [hclean, Option.some.injEq, Prod.mk.injEq] at h
        obtain ⟨-, -, -, h3⟩ := h
        rw [← h3]
        simp [pairedTrace]
    · rcases hsave : env.save s ⟨stp, st.error⟩ with se | s1
      · simp only [hsave, Option.some.injEq, Prod.mk.injEq] at h
        obtain ⟨-, -, -, h3⟩ := h
        rw [← h3]
        simp [pairedTrace]
      simp only [hsave] at h
      rcases hrec : runLoop env fuel (i + 1) ⟨stp, st.error⟩ s1 with _ | ⟨res2, st2, s2, tr2⟩
      · simp [hrec] at h
      simp only [hrec, Option.some.injEq, Prod.mk.injEq] at h
      obtain ⟨-, -, -, h3⟩ := h
      rw [← h3]
      simp only [pairedTrace]
      exact ih _ _ _ _ _ _ _ hrec

end Lemmas

section Claims

variable {Step σ StoreE : Type}

/-- Claim C1: when the checkpoint has a pending error, `run()` fails
immediately with a `Step` error embedding the previous failure text and the
debug rendering of the current state; no transition is invoked and no store
operation is performed (empty event trace, durable medium unchanged). -/
theorem claim_c1_guard (env : Env Step σ StoreE) (fuel : Nat) (st : State Step)
    (s : σ) (e : String) (herr : st.error = some e) :
    Engine.run env fuel st s =
      some (Except.error (Error.Step ("Previous run resulted in an error: " ++ e ++
        " on step: " ++ env.dbg st.step)), st, s, []) := by
  simp [Engine.run, herr]

/-- Witness for C1 at a concrete pending error. -/
theorem claim_c1_guard_witness :
    Engine.run (unitEnv fun _ _ => Except.ok none) 5 ⟨(), some "boom"⟩ 0 =
      some (Except.error (Error.Step ("Previous run resulted in an error: " ++ "boom" ++
        " on step: " ++ "Unit")), ⟨(), some "boom"⟩, 0, []) :=
  claim_c1_guard (unitEnv fun _ _ => Except.ok none) 5 ⟨(), some "boom"⟩ 0 "boom" rfl

/-- Claim C7: `drop_error()` clears the error field, keeps the step field
unchanged, and immediately persists exactly the cleared checkpoint via
`Store.save`; on a successful save it returns the cleared checkpoint. -/
theorem claim_c7_drop_error (env : Env Step σ StoreE) (st : State Step) (s : σ) :
    (Engine.drop_error env st s).2 = [Event.save ⟨st.step, none⟩] ∧
    (∀ s1, env.save s ⟨st.step, none⟩ = Except.ok s1 →
      (Engine.drop_error env st s).1 = Except.ok (⟨st.step, none⟩, s1)) := by
  constructor
  · rcases h : env.save s ⟨st.step, none⟩ with e | s1 <;> simp [Engine.drop_error, h]
  · intro s1 h
    simp [Engine.drop_error, h]

/-- Witness for C7 at a concrete checkpoint with a pending error. -/
theorem claim_c7_drop_error_witness :
    (Engine.drop_error (unitEnv fun _ _ => Except.ok none) ⟨(), some "boom"⟩ 0).2 =
      [Event.save ⟨(), none⟩] ∧
    (Engine.drop_error (unitEnv fun _ _ => Except.ok none) ⟨(), some "boom"⟩ 0).1 =
      Except.ok (⟨(), none⟩, 1) :=
  ⟨(claim_c7_drop_error (unitEnv fun _ _ => Except.ok none) ⟨(), some "boom"⟩ 0).1,
    (claim_c7_drop_error (unitEnv fun _ _ => Except.ok none) ⟨(), some "boom"⟩ 0).2 1 rfl⟩

/-- Claim C8: `JsonStore.clean` maps any failure of `fs::remove_file` to a
`RemoveFile` error; in particular, on an absent file (no durable record)
`remove_file` fails with `NotFound` and `clean` reports the `RemoveFile`
error rather than treating the missing record as success. -/
theorem claim_c8_clean_absent (path : String) :
    (∀ (fs : FS) (e : IoErr), removeFile fs = Except.error e →
      JsonStore.clean path fs = Except.error (JsonStore.Error.RemoveFile e path)) ∧
    (∀ fs : FS, fs.file = none →
      JsonStore.clean path fs =
        Except.error (JsonStore.Error.RemoveFile IoErr.notFound path)) := by
  constructor
  · intro fs e h
    simp [JsonStore.clean, h]
  · intro fs h
    simp [JsonStore.clean, removeFile, h]

/-- Witness for C8 at a concrete path and an absent file. -/
theorem claim_c8_clean_absent_witness :
    JsonStore.clean "prog.json" ⟨none⟩ =
      Except.error (JsonStore.Error.RemoveFile IoErr.notFound "prog.json") :=
  (claim_c8_clean_absent "prog.json").2 ⟨none⟩ rfl

/-- Claim C10: in the failure branch of the run loop, when deserializing the
pre-transition snapshot fails, the loop returns a `Serde` error (not a
`Step` error) before `Store.save` is called: the step failure is not
recorded in the checkpoint, the durable medium is untouched, and the trace
holds only the transition invocation. -/
theorem claim_c10_deser_failure (env : Env Step σ StoreE) (fuel i : Nat)
    (st : State Step) (s : σ) (backup : String) (e : BoxedError) (e2 : String)
    (hser : env.ser st.step = Except.ok backup)
    (hnext : env.next i st.step = Except.error e)
    (hdeser : env.deser backup = Except.error e2) :
    runLoop env (fuel + 1) i st s =
      some (Except.error (Error.Serde e2), st, s, [Event.invoke st.step]) := by
  simp [runLoop, hser, hnext, hdeser]

/-- Witness for C10 at a concrete environment whose snapshot cannot be
deserialized. -/
theorem claim_c10_deser_failure_witness :
    runLoop (deserFailEnv fun _ _ => Except.error ⟨"boom", []⟩) 1 0 ⟨(), none⟩ 0 =
      some (Except.error (Error.Serde "bad json"), ⟨(), none⟩, 0, [Event.invoke ()]) :=
  claim_c10_deser_failure (deserFailEnv fun _ _ => Except.error ⟨"boom", []⟩) 0 0
    ⟨(), none⟩ 0 "snapshot" ⟨"boom", []⟩ "bad json" rfl rfl rfl

/-- Claim C2: whenever `run()` reports a step failure out of its loop, some
transition failed; the checkpoint was rolled back through the
serialize/deserialize snapshot to exactly the step value active before the
failing attempt, its error set to the formatted failure text, exactly that
checkpoint was persisted by a successful `Store.save` as the final event of
the run, and the failure text is returned to the caller with no further
iteration (no automatic retry). -/
theorem claim_c2_rollback (env : Env Step σ StoreE) (fuel : Nat) (st st' : State Step)
    (s s' : σ) (msg : String) (tr : List (Event Step))
    (hrt : ∀ a j, env.ser a = Except.ok j → env.deser j = Except.ok a)
    (hguard : st.error = none)
    (hrun : Engine.run env fuel st s =
      some (Except.error (Error.Step msg), st', s', tr)) :
    ∃ k stp e smid,
      env.next k stp = Except.error e ∧
      st' = ⟨stp, some (error_chain e)⟩ ∧ msg = error_chain e ∧
      env.save smid st' = Except.ok s' ∧
      (∃ tr0, tr = tr0 ++ [Event.invoke stp, Event.save st']) := by
  simp only [Engine.run, hguard] at hrun
  obtain ⟨k, stp, e, backup, restored, smid, tr0, ha, hb, hc, hd, he, hf, htr⟩ :=
    runLoop_stepErr env fuel 0 st s msg st' s' tr hrun
  have h2 := hrt stp backup ha
  rw [hc] at h2
  simp only [Except.ok.injEq] at h2
  rw [h2] at hd
  exact ⟨k, stp, e, smid, hb, hd, he, hf, tr0, htr⟩

/-- Witness for C2: a run whose first transition fails. -/
theorem claim_c2_rollback_witness :
    ∃ k stp e smid,
      (unitEnv fun _ _ => Except.error ⟨"Coins landed differently", []⟩).next k stp =
        Except.error e ∧
      (⟨(), some "Coins landed differently"⟩ : State Unit) = ⟨stp, some (error_chain e)⟩ ∧
      "Coins landed differently" = error_chain e ∧
      (unitEnv fun _ _ => Except.error ⟨"Coins landed differently", []⟩).save smid
        ⟨(), some "Coins landed differently"⟩ = Except.ok 1 ∧
      (∃ tr0, [Event.invoke (), Event.save ⟨(), some "Coins landed differently"⟩] =
        tr0 ++ [Event.invoke stp,
          Event.save (⟨(), some "Coins landed differently"⟩ : State Unit)]) :=
  claim_c2_rollback (unitEnv fun _ _ => Except.error ⟨"Coins landed differently", []⟩)
    1 ⟨(), none⟩ ⟨(), some "Coins landed differently"⟩ 0 1 "Coins landed differently"
    [Event.invoke (), Event.save ⟨(), some "Coins landed differently"⟩]
    (fun _ _ _ => rfl) rfl rfl

/-- Claim C4: `restore()` acts on the result of `Store.load()`: a present
checkpoint fully replaces the in-memory one (state and pending error alike),
and an absent record leaves the in-memory checkpoint, hence the initial
state, unchanged; with the default store, `JsonStore.load` on a location
with no file reports an absent record, so `restore()` keeps the initial
checkpoint. -/
theorem claim_c4_restore (st : State Step) :
    (∀ st2 : State Step,
      Engine.restore (Except.ok (some st2) : Except StoreE (Option (State Step))) st =
        Except.ok st2) ∧
    (Engine.restore (Except.ok none : Except StoreE (Option (State Step))) st =
      Except.ok st) ∧
    (∀ (dec : String → Except String (State Step)) (path : String) (fs : FS),
      fs.file = none →
      JsonStore.load dec path fs = Except.ok none ∧
      Engine.restore (JsonStore.load dec path fs) st = Except.ok st) := by
  refine ⟨fun st2 => rfl, rfl, fun dec path fs h => ?_⟩
  have hload : JsonStore.load dec path fs = Except.ok none := by
    simp [JsonStore.load, readToString, h]
  exact ⟨hload, by rw [hload]; rfl⟩

/-- Witness for C4 at a concrete checkpoint and an absent file. -/
theorem claim_c4_restore_witness :
    JsonStore.load (fun _ => (Except.error "no" : Except String (State Unit)))
      "prog.json" ⟨none⟩ = Except.ok none ∧
    Engine.restore
      (JsonStore.load (fun _ => (Except.error "no" : Except String (State Unit)))
        "prog.json" ⟨none⟩)
      (⟨(), none⟩ : State Unit) = Except.ok ⟨(), none⟩ :=
  (@claim_c4_restore Unit String ⟨(), none⟩).2.2
    (fun _ => (Except.error "no" : Except String (State Unit))) "prog.json" ⟨none⟩ rfl

/-- Claim C5: the failure text recorded in the checkpoint and returned by a
step-failing `run()` is the failing error's top-level message followed, when
there are nested causes, by one `"Caused by:"` header and then each cause in
order on its own tab-indented line. -/
theorem claim_c5_error_chain_format (env : Env Step σ StoreE) (fuel : Nat)
    (st st' : State Step) (s s' : σ) (msg : String) (tr : List (Event Step))
    (hguard : st.error = none)
    (hrun : Engine.run env fuel st s =
      some (Except.error (Error.Step msg), st', s', tr)) :
    ∃ k stp e, env.next k stp = Except.error e ∧
      msg = e.msg ++ (if e.causes = [] then "" else "\nCaused by:" ++ joinCauses e.causes) ∧
      st'.error = some msg := by
  simp only [Engine.run, hguard] at hrun
  obtain ⟨k, stp, e, backup, restored, smid, tr0, ha, hb, hc, hd, he, hf, htr⟩ :=
    runLoop_stepErr env fuel 0 st s msg st' s' tr hrun
  refine ⟨k, stp, e, hb, ?_, ?_⟩
  · rw [he, error_chain_closed]
  · rw [hd, he]

/-- Witness for C5: a failing transition whose error has two nested causes. -/
theorem claim_c5_error_chain_format_witness :
    ∃ k stp e,
      (unitEnv fun _ _ => Except.error ⟨"boom", ["c1", "c2"]⟩).next k stp =
        Except.error e ∧
      "boom\nCaused by:\n\tc1\n\tc2" =
        e.msg ++ (if e.causes = [] then "" else "\nCaused by:" ++ joinCauses e.causes) ∧
      (⟨(), some "boom\nCaused by:\n\tc1\n\tc2"⟩ : State Unit).error =
        some "boom\nCaused by:\n\tc1\n\tc2" :=
  claim_c5_error_chain_format (unitEnv fun _ _ => Except.error ⟨"boom", ["c1", "c2"]⟩)
    1 ⟨(), none⟩ ⟨(), some "boom\nCaused by:\n\tc1\n\tc2"⟩ 0 1
    "boom\nCaused by:\n\tc1\n\tc2"
    [Event.invoke (), Event.save ⟨(), some "boom\nCaused by:\n\tc1\n\tc2"⟩]
    rfl (by rfl)

/-- Claim C6: any `run()` that passes the guard produces a paired event
trace: each transition invocation that produced a successor or a recorded
failure is immediately followed by exactly one `Store.save`, and a terminal
invocation (transition returning `None`) by exactly one trailing
`Store.clean`, with no other store events; under the round-trip requirement
that the engine's snapshots deserialize. -/
theorem claim_c6_paired_effects (env : Env Step σ StoreE) (fuel : Nat)
    (st : State Step) (s : σ) (res : Except (Error StoreE) Unit) (st' : State Step)
    (s' : σ) (tr : List (Event Step))
    (hrt : ∀ a j, env.ser a = Except.ok j → (env.deser j).isOk = true)
    (hguard : st.error = none)
    (hrun : Engine.run env fuel st s = some (res, st', s', tr)) :
    pairedTrace tr = true := by
  simp only [Engine.run, hguard] at hrun
  exact runLoop_paired env hrt fuel 0 st s res st' s' tr hrun

/-- Witness for C6: a two-iteration run (one successor, then terminal). -/
theorem claim_c6_paired_effects_witness :
    pairedTrace [Event.invoke (), Event.save (⟨(), none⟩ : State Unit),
      Event.invoke (), Event.clean] = true :=
  claim_c6_paired_effects
    (unitEnv fun i _ => if i = 0 then Except.ok (some ()) else Except.ok none)
    3 ⟨(), none⟩ 0 (Except.ok ()) ⟨(), none⟩ 1
    [Event.invoke (), Event.save ⟨(), none⟩, Event.invoke (), Event.clean]
    (fun _ _ _ => rfl) rfl rfl

/-- Claim C3, counterexample to the unamended statement: over the default
`JsonStore` with no pre-existing file, a run whose first transition returns
`None` (terminal) calls `Store.clean` and returns a `Store` error, not
success. -/
theorem claim_c3_counterexample :
    terminalJsonEnv.next 0 () = Except.ok none ∧
    Engine.run terminalJsonEnv 1 ⟨(), none⟩ ⟨none⟩ =
      some (Except.error (Error.Store
        (JsonStore.Error.RemoveFile IoErr.notFound "prog.json")),
        ⟨(), none⟩, ⟨none⟩, [Event.invoke (), Event.clean]) :=
  ⟨rfl, rfl⟩

/-- Claim C3 (amended): every `run()` over the default `JsonStore` that
returns success does so because a transition returned `None` (terminal); the
run performs exactly one `Store.clean`, and afterwards `JsonStore.load` on
the same location reports no durable record. Success is additionally
conditioned on that `clean` itself succeeding: a terminal transition whose
`clean` fails makes `run()` return a `Store` error instead. -/
theorem claim_c3_terminal_clean {Step2 : Type} (ser2 : Step2 → Except String String)
    (deser2 : String → Except String Step2)
    (next2 : Nat → Step2 → Except BoxedError (Option Step2)) (dbg2 : Step2 → String)
    (enc2 : State Step2 → Except String String) (dbgSt2 : State Step2 → String)
    (path : String) (fuel : Nat) (st st' : State Step2) (fs fs' : FS)
    (tr : List (Event Step2))
    (hrun : Engine.run (jsonEnv ser2 deser2 next2 dbg2 enc2 dbgSt2 path) fuel st fs =
      some (Except.ok (), st', fs', tr)) :
    (∃ k stp, next2 k stp = Except.ok none) ∧ cleanCount tr = 1 ∧
    (∀ dec : String → Except String (State Step2),
      JsonStore.load dec path fs' = Except.ok none) := by
  rcases herr : st.error with _ | e
  · simp only [Engine.run, herr] at hrun
    obtain ⟨k, stp, smid, tr0, hk, hc, htr, hcc⟩ :=
      runLoop_ok (jsonEnv ser2 deser2 next2 dbg2 enc2 dbgSt2 path) fuel 0 st fs
        st' fs' tr hrun
    simp only [jsonEnv] at hk hc
    have hfs : fs' = ⟨none⟩ := by
      rcases smid with ⟨_ | content⟩
      · simp [JsonStore.clean, removeFile] at hc
      · simp only [JsonStore.clean, removeFile, Except.ok.injEq] at hc
        exact hc.symm
    refine ⟨⟨k, stp, hk⟩, ?_, ?_⟩
    · rw [htr, cleanCount_append, hcc]
      simp [cleanCount]
    · intro dec
      rw [hfs]
      simp [JsonStore.load, readToString]
  · simp [Engine.run, herr] at hrun

/-- Witness for C3 (amended): a terminal run over a present durable record. -/
theorem claim_c3_terminal_clean_witness :
    (∃ k stp,
      (fun (_ : Nat) (_ : Unit) => (Except.ok none : Except BoxedError (Option Unit)))
        k stp = Except.ok none) ∧
    cleanCount [Event.invoke (), Event.clean] = 1 ∧
    (∀ dec : String → Except String (State Unit),
      JsonStore.load dec "prog.json" (⟨none⟩ : FS) = Except.ok none) :=
  claim_c3_terminal_clean (fun _ => Except.ok "snapshot") (fun _ => Except.ok ())
    (fun (_ : Nat) (_ : Unit) => (Except.ok none : Except BoxedError (Option Unit)))
    (fun _ => "Unit") (fun _ => Except.ok "record")
    (fun _ => "State") "prog.json" 1 ⟨(), none⟩ ⟨(), none⟩ ⟨some "record"⟩ ⟨none⟩
    [Event.invoke (), Event.clean] rfl

/-- Claim C9: an engine built by `new()` (so nothing has been saved yet)
whose very first transition returns `None` calls `Store.clean` with no prior
`Store.save` (the trace holds no save event); with the default `JsonStore`
over a location with no pre-existing file, `run()` therefore returns a
`Store` error (`RemoveFile` of `NotFound`) even though the machine reached
its terminal condition. -/
theorem claim_c9_clean_without_save {Step2 : Type}
    (ser2 : Step2 → Except String String) (deser2 : String → Except String Step2)
    (next2 : Nat → Step2 → Except BoxedError (Option Step2)) (dbg2 : Step2 → String)
    (enc2 : State Step2 → Except String String) (dbgSt2 : State Step2 → String)
    (path : String) (s0 : Step2) (j : String) (fuel : Nat)
    (hser : ser2 s0 = Except.ok j) (hnext : next2 0 s0 = Except.ok none) :
    Engine.run (jsonEnv ser2 deser2 next2 dbg2 enc2 dbgSt2 path) (fuel + 1)
      (Engine.new s0) ⟨none⟩ =
      some (Except.error (Error.Store
        (JsonStore.Error.RemoveFile IoErr.notFound path)),
        ⟨s0, none⟩, ⟨none⟩, [Event.invoke s0, Event.clean]) := by
  simp [Engine.run, Engine.new, State.new, runLoop, jsonEnv, hser, hnext,
    JsonStore.clean, removeFile]

/-- Witness for C9 at a concrete fresh engine and empty file location. -/
theorem claim_c9_clean_without_save_witness :
    Engine.run (jsonEnv (fun (_ : Unit) => Except.ok "snapshot")
      (fun _ => Except.ok ()) (fun _ _ => Except.ok none) (fun _ => "Unit")
      (fun _ => Except.ok "record") (fun _ => "State") "app.json") 1
      (Engine.new ()) ⟨none⟩ =
      some (Except.error (Error.Store
        (JsonStore.Error.RemoveFile IoErr.notFound "app.json")),
        ⟨(), none⟩, ⟨none⟩, [Event.invoke (), Event.clean]) :=
  claim_c9_clean_without_save (fun _ => Except.ok "snapshot") (fun _ => Except.ok ())
    (fun _ _ => Except.ok none) (fun _ => "Unit") (fun _ => Except.ok "record")
    (fun _ => "State") "app.json" () "snapshot" 0 rfl rfl

end Claims

end StepMachine
